import Mathlib

/-!
Shallow embedding of `src/ScreenCap.py` (AsaTyr2018/ScreenCapper).

The script batch-processes videos: per video it clears two shared scratch
directories (`Work/screencaps`, `Work/faces`), decodes frames sequentially,
writes one full-frame snapshot per decoded frame, runs the selected detector
on each frame and writes one cropped image per accepted region, and finally
copies both scratch directories into `output/<base name>/` with
`shutil.copytree`.

Images themselves are irrelevant to the verified properties; files are
modelled by their keys: a snapshot is keyed by its frame index
(`frame_{i}.jpg`), a region image by the pair (frame index, per-frame
ordinal) (`anime_face_{f}_{i}.jpg` / `realistic_face_{f}_{i}.jpg`).
Confidence scores are modelled as rationals; the threshold `0.5` is exact.
Python exceptions are modelled as an `Option` error component carried next
to the mutated state, since an escaping exception leaves all filesystem
side effects already performed in place.
-/

namespace ScreenCap

/-- A YOLO candidate box: coordinates plus a confidence score
(`box.xyxy`, `box.conf` in the source). -/
structure AnimeBox where
  x1 : Int
  y1 : Int
  x2 : Int
  y2 : Int
  conf : ℚ
  deriving DecidableEq, Repr

/-- A `face_recognition` location `(top, right, bottom, left)`. -/
structure FaceLoc where
  top : Int
  right : Int
  bottom : Int
  left : Int
  deriving DecidableEq, Repr

/-- A decoded frame, represented by what the external detectors return on
it: the YOLO result (`.error` = the model raises) and the
`face_recognition` result (`.error` = the library raises). -/
structure Frame where
  animeBoxes : Except Unit (List AnimeBox)
  faceLocs : Except Unit (List FaceLoc)

/-- The run-level mode string: `"Realistic"` or `"Anime"`. -/
inductive Mode where
  | Realistic
  | Anime
  deriving DecidableEq

/-- The loop body of `detect_faces_anime` (lines 100-107):
`for i, box in enumerate(results[0].boxes)` — the ordinal `i` counts every
candidate, but a file is written only when `conf >= 0.5`. -/
def animeLoop (boxes : List AnimeBox) (frameCount i : Nat) : List (Nat × Nat) :=
  match boxes with
  | [] => []
  | b :: rest =>
    if mkRat 1 2 ≤ b.conf then
      (frameCount, i) :: animeLoop rest frameCount (i + 1)
    else
      animeLoop rest frameCount (i + 1)

/-- `detect_faces_anime(frame, frame_count)` (lines 91-109): returns the
keys of the region files written for this frame. -/
def detect_faces_anime (boxes : List AnimeBox) (frameCount : Nat) : List (Nat × Nat) :=
  animeLoop boxes frameCount 0

/-- The loop body of `detect_faces_realistic` (lines 83-87):
`for i, (top, right, bottom, left) in enumerate(face_locations)` — every
location is written. -/
def realLoop (locs : List FaceLoc) (frameCount i : Nat) : List (Nat × Nat) :=
  match locs with
  | [] => []
  | _ :: rest => (frameCount, i) :: realLoop rest frameCount (i + 1)

/-- `detect_faces_realistic(frame, frame_count)` (lines 74-89): returns the
keys of the region files written for this frame. -/
def detect_faces_realistic (locs : List FaceLoc) (frameCount : Nat) : List (Nat × Nat) :=
  realLoop locs frameCount 0

/-- Lines 153-156: dispatch on the mode string; an exception raised by the
detector propagates (`.error`). -/
def runDetect (mode : Mode) (f : Frame) (frameCount : Nat) : Except Unit (List (Nat × Nat)) :=
  match mode with
  | .Realistic => f.faceLocs.map (fun locs => detect_faces_realistic locs frameCount)
  | .Anime => f.animeBoxes.map (fun boxes => detect_faces_anime boxes frameCount)

/-- The transient workspace: the file keys currently present in
`Work/screencaps` (frame indices) and `Work/faces` (frame index, ordinal). -/
structure Workspace where
  screencaps : List Nat
  faces : List (Nat × Nat)
  deriving DecidableEq, Repr

def emptyWorkspace : Workspace := { screencaps := [], faces := [] }

/-- `for file in os.listdir(dir_path): os.unlink(...)` (lines 133-135):
each listed entry is removed in turn. -/
def clearDir {α : Type} [DecidableEq α] (files : List α) : List α :=
  files.foldl (fun remaining f => remaining.erase f) files

/-- Clearing both working directories before a video (lines 132-135). -/
def resetWorkspace (ws : Workspace) : Workspace :=
  { screencaps := clearDir ws.screencaps, faces := clearDir ws.faces }

/-- Errors that can escape `process_videos` as Python exceptions: a raise
from the detector libraries, or `shutil.copytree`'s `FileExistsError`. -/
inductive PipeErr where
  | detectorError
  | fileExists
  deriving DecidableEq, Repr

/-- The frame-reading loop (lines 142-159).  A stream entry `some f` is a
successful `cap.read()`; `none` is `ret == False` (decode failure); the end
of the list is exhaustion (also `ret == False`).  Per decoded frame the
snapshot is written first, then the detector runs; a detector exception
stops the loop with the snapshot already on disk.  Returns the workspace as
mutated, the number of frames successfully decoded, and the escaping
exception if any. -/
def streamLoop (mode : Mode) (stream : List (Option Frame)) (frameCount : Nat)
    (ws : Workspace) : Workspace × Nat × Option PipeErr :=
  match stream with
  | [] => (ws, 0, none)
  | none :: _ => (ws, 0, none)
  | some f :: rest =>
    let ws1 : Workspace := { ws with screencaps := ws.screencaps ++ [frameCount] }
    match runDetect mode f frameCount with
    | .error _ => (ws1, 1, some .detectorError)
    | .ok regions =>
      let ws2 : Workspace := { ws1 with faces := ws1.faces ++ regions }
      let r := streamLoop mode rest (frameCount + 1) ws2
      (r.1, r.2.1 + 1, r.2.2)

/-- One per-video directory under `output/`: each sub-directory either does
not exist (`none`) or holds a list of file keys. -/
structure OutputDir where
  screencaps : Option (List Nat)
  faces : Option (List (Nat × Nat))
  deriving DecidableEq, Repr

/-- The filesystem state the pipeline touches: the shared workspace and the
`output/` hierarchy (an association list from base name to directory). -/
structure World where
  work : Workspace
  output : List (String × OutputDir)
  deriving DecidableEq, Repr

def emptyWorld : World := { work := emptyWorkspace, output := [] }

def lookupOut (out : List (String × OutputDir)) (b : String) : Option OutputDir :=
  match out with
  | [] => none
  | (n, d) :: rest => if n = b then some d else lookupOut rest b

def setOut (out : List (String × OutputDir)) (b : String) (d : OutputDir) :
    List (String × OutputDir) :=
  match out with
  | [] => [(b, d)]
  | (n, d0) :: rest => if n = b then (n, d) :: rest else (n, d0) :: setOut rest b d

inductive SubName where
  | screencaps
  | faces
  deriving DecidableEq, Repr

/-- Primitive filesystem steps performed during promotion (lines 163-170):
`os.makedirs(video_output_dir, exist_ok=True)`, the `os.makedirs(dst)`
inside `shutil.copytree`, and the per-file copies `copytree` performs. -/
inductive FsOp where
  | mkdirBase (b : String)
  | mkdirSub (b : String) (s : SubName)
  | copySnap (b : String) (k : Nat)
  | copyFace (b : String) (k : Nat × Nat)
  deriving DecidableEq, Repr

def applyOp (w : World) : FsOp → World
  | .mkdirBase b =>
    match lookupOut w.output b with
    | some _ => w
    | none => { w with output := setOut w.output b { screencaps := none, faces := none } }
  | .mkdirSub b s =>
    let d := (lookupOut w.output b).getD { screencaps := none, faces := none }
    let d' : OutputDir :=
      match s with
      | .screencaps => { d with screencaps := some [] }
      | .faces => { d with faces := some [] }
    { w with output := setOut w.output b d' }
  | .copySnap b k =>
    let d := (lookupOut w.output b).getD { screencaps := none, faces := none }
    let d' : OutputDir := { d with screencaps := some (d.screencaps.getD [] ++ [k]) }
    { w with output := setOut w.output b d' }
  | .copyFace b k =>
    let d := (lookupOut w.output b).getD { screencaps := none, faces := none }
    let d' : OutputDir := { d with faces := some (d.faces.getD [] ++ [k]) }
    { w with output := setOut w.output b d' }

/-- The sequence of filesystem steps a fully successful promotion performs,
in program order: create the base directory, then `copytree` the snapshots
(create the destination, copy each file), then `copytree` the regions. -/
def promoteTrace (b : String) (ws : Workspace) : List FsOp :=
  .mkdirBase b ::
    ((.mkdirSub b .screencaps :: ws.screencaps.map (FsOp.copySnap b)) ++
      (.mkdirSub b .faces :: ws.faces.map (FsOp.copyFace b)))

def subExists (w : World) (b : String) (s : SubName) : Bool :=
  match lookupOut w.output b with
  | none => false
  | some d =>
    match s with
    | .screencaps => d.screencaps.isSome
    | .faces => d.faces.isSome

/-- Promotion (lines 163-170): `os.makedirs(..., exist_ok=True)` then two
`shutil.copytree` calls.  `copytree` raises `FileExistsError` when its
destination already exists, before copying anything; otherwise it creates
the destination and copies every file into it. -/
def promote (b : String) (ws : Workspace) (w : World) : World × Option PipeErr :=
  let w1 := applyOp w (.mkdirBase b)
  if subExists w1 b .screencaps then (w1, some .fileExists)
  else
    let w2 := ((FsOp.mkdirSub b .screencaps :: ws.screencaps.map (FsOp.copySnap b) :
      List FsOp)).foldl applyOp w1
    if subExists w2 b .faces then (w2, some .fileExists)
    else
      (((FsOp.mkdirSub b .faces :: ws.faces.map (FsOp.copyFace b) :
        List FsOp)).foldl applyOp w2, none)

/-- `os.path.splitext(name)[0]` for a bare file name: split at the last
dot, unless every character before that dot is itself a dot. -/
def splitextBase (name : String) : String :=
  let cs := name.data
  if '.' ∈ cs then
    let k := cs.length - 1 - cs.reverse.indexOf '.'
    if (cs.take k).any (fun c => c ≠ '.') then String.mk (cs.take k) else name
  else name

/-- ASCII case folding of one code point; this is how `str.lower` acts on
every character that could make the extension comparison succeed. -/
def lowerNat (n : Nat) : Nat := if 65 ≤ n ∧ n ≤ 90 then n + 32 else n

/-- A file name lowered to its code points, `f.lower()`. -/
def lowerName (name : String) : List Nat :=
  name.data.map (fun c => lowerNat c.toNat)

/-- `s.endswith(ext)` on code-point lists. -/
def endsWithExt (l ext : List Nat) : Bool :=
  ext.length ≤ l.length ∧ l.drop (l.length - ext.length) = ext

/-- Line 121: `f.lower().endswith((".mp4", ".avi", ".mkv"))`. -/
def videoExtOk (name : String) : Bool :=
  endsWithExt (lowerName name) (".mp4".data.map Char.toNat) ||
    endsWithExt (lowerName name) (".avi".data.map Char.toNat) ||
      endsWithExt (lowerName name) (".mkv".data.map Char.toNat)

/-- One entry of the input directory: its file name, and the stream of
`cap.read()` results its decoder produces (see `streamLoop`). -/
structure VideoFile where
  name : String
  stream : List (Option Frame)

/-- The per-video body of the loop in `process_videos` (lines 127-172):
clear the workspace, stream the frames, and — unless an exception escaped
the streaming loop — promote the workspace into `output/<base name>/`. -/
def processOneVideo (mode : Mode) (v : VideoFile) (w : World) : World × Option PipeErr :=
  let ws0 := resetWorkspace w.work
  let r := streamLoop mode v.stream 0 ws0
  match r.2.2 with
  | some e => ({ w with work := r.1 }, some e)
  | none => promote (splitextBase v.name) r.1 { w with work := r.1 }

/-- The `for video_file in ...` loop: videos are processed in order; an
exception escaping one video's processing aborts the whole loop. -/
def runVideos (mode : Mode) (vs : List VideoFile) (w : World) : World × Option PipeErr :=
  match vs with
  | [] => (w, none)
  | v :: rest =>
    let r := processOneVideo mode v w
    match r.2 with
    | some e => (r.1, some e)
    | none => runVideos mode rest r.1

/-- `process_videos(mode)` (lines 111-172): filter the input listing by
extension; if nothing matches, print a message and return with the world
untouched; otherwise run the per-video loop. -/
def process_videos (mode : Mode) (inputFiles : List VideoFile) (w : World) :
    World × Option PipeErr :=
  let vids := inputFiles.filter (fun v => videoExtOk v.name)
  if vids.isEmpty then (w, none) else runVideos mode vids w

/-- A file observable under `output/<b>/`, for stating promotion
atomicity. -/
inductive OutFile where
  | snap (k : Nat)
  | face (k : Nat × Nat)
  deriving DecidableEq, Repr

/-- The files visible under the final-named output directory for base `b`. -/
def observedFiles (w : World) (b : String) : List OutFile :=
  match lookupOut w.output b with
  | none => []
  | some d => (d.screencaps.getD []).map OutFile.snap ++ (d.faces.getD []).map OutFile.face

/-- The full set of files a completed promotion of workspace `ws` is
expected to make visible. -/
def expectedFiles (ws : Workspace) : List OutFile :=
  ws.screencaps.map OutFile.snap ++ ws.faces.map OutFile.face

/-! ### Helper lemmas -/

theorem foldl_erase_of_perm {α : Type} [DecidableEq α] :
    ∀ (l acc : List α), acc.Perm l →
      l.foldl (fun remaining f => remaining.erase f) acc = [] := by
  intro l
  induction l with
  | nil => intro acc h; simpa using h.eq_nil
  | cons x xs ih =>
    intro acc h
    have h' : (acc.erase x).Perm xs := by
      have := h.erase x
      simpa [List.erase_cons_head] using this
    simpa using ih (acc.erase x) h'

theorem clearDir_eq_nil {α : Type} [DecidableEq α] (l : List α) : clearDir l = [] :=
  foldl_erase_of_perm l l (List.Perm.refl l)

theorem resetWorkspace_eq_empty (ws : Workspace) : resetWorkspace ws = emptyWorkspace := by
  simp [resetWorkspace, clearDir_eq_nil, emptyWorkspace]

theorem streamLoop_screencaps (mode : Mode) :
    ∀ (stream : List (Option Frame)) (fc : Nat) (ws : Workspace),
      (streamLoop mode stream fc ws).1.screencaps
        = ws.screencaps ++ List.range' fc (streamLoop mode stream fc ws).2.1 := by
  intro stream
  induction stream with
  | nil => intro fc ws; simp [streamLoop]
  | cons o rest ih =>
    intro fc ws
    match o with
    | none => simp [streamLoop]
    | some f =>
      cases h : runDetect mode f fc with
      | error e => simp [streamLoop, h, List.range']
      | ok regions =>
        simp only [streamLoop, h]
        rw [ih]
        simp [List.range'_succ]

theorem applyOp_work (w : World) (op : FsOp) : (applyOp w op).work = w.work := by
  cases op with
  | mkdirBase b => simp only [applyOp]; split <;> rfl
  | mkdirSub b s => rfl
  | copySnap b k => rfl
  | copyFace b k => rfl

theorem foldl_applyOp_work : ∀ (ops : List FsOp) (w : World),
    (ops.foldl applyOp w).work = w.work := by
  intro ops
  induction ops with
  | nil => intro w; rfl
  | cons op rest ih => intro w; rw [List.foldl_cons, ih, applyOp_work]

theorem promote_work (b : String) (ws : Workspace) (w : World) :
    (promote b ws w).1.work = w.work := by
  simp only [promote]
  split
  · exact applyOp_work w _
  · split
    · simp [foldl_applyOp_work, applyOp_work]
    · simp [foldl_applyOp_work, applyOp_work]

/-! ### Claim C8 -/

/-- Claim C8: workspace reset is idempotent — resetting twice leaves the
same (empty) workspace as resetting once, and resetting an already-empty
workspace succeeds and leaves both containers empty. -/
theorem claim_C8 :
    (∀ ws : Workspace, resetWorkspace (resetWorkspace ws) = resetWorkspace ws) ∧
      resetWorkspace emptyWorkspace = emptyWorkspace :=
  ⟨fun _ => by rw [resetWorkspace_eq_empty, resetWorkspace_eq_empty],
    resetWorkspace_eq_empty _⟩

/-! ### Claim C2 -/

/-- Claim C2: for every video from which `N` frames are successfully
decoded (the `Nat` component returned by the streaming loop counts exactly
the successful `cap.read()` calls), the streaming loop leaves exactly the
snapshots keyed `0, 1, ..., N-1` in the workspace, with no gaps; and the
workspace `processOneVideo` leaves behind is exactly that of the streaming
loop started on the cleared workspace. -/
theorem claim_C2 :
    (∀ (mode : Mode) (stream : List (Option Frame)),
      (streamLoop mode stream 0 emptyWorkspace).1.screencaps
        = List.range (streamLoop mode stream 0 emptyWorkspace).2.1) ∧
      ∀ (mode : Mode) (v : VideoFile) (w : World),
        (processOneVideo mode v w).1.work
          = (streamLoop mode v.stream 0 emptyWorkspace).1 := by
  constructor
  · intro mode stream
    have h := streamLoop_screencaps mode stream 0 emptyWorkspace
    simpa [emptyWorkspace, List.range_eq_range'] using h
  · intro mode v w
    simp only [processOneVideo, resetWorkspace_eq_empty]
    split
    · rfl
    · rw [promote_work]

/-! ### Claim C6 -/

theorem streamLoop_decode_failure (mode : Mode) :
    ∀ (fs : List Frame) (rest : List (Option Frame)) (fc : Nat) (ws : Workspace),
      streamLoop mode (fs.map some ++ none :: rest) fc ws
        = streamLoop mode (fs.map some) fc ws := by
  intro fs
  induction fs with
  | nil => intro rest fc ws; simp [streamLoop]
  | cons f fs ih =>
    intro rest fc ws
    cases h : runDetect mode f fc with
    | error e => simp [streamLoop, h]
    | ok regions => simp [streamLoop, h, ih]

/-- Claim C6: a decode failure on an individual frame (a `cap.read()`
returning `ret == False` mid-stream) ends the frame sequence exactly as
video exhaustion does: processing the video is identical to processing the
truncated video, so no error escapes on account of the failed read and the
snapshots and regions written for the earlier frames are kept and
promoted. -/
theorem claim_C6 (mode : Mode) (name : String) (fs : List Frame)
    (rest : List (Option Frame)) (w : World) :
    processOneVideo mode { name := name, stream := fs.map some ++ none :: rest } w
      = processOneVideo mode { name := name, stream := fs.map some } w := by
  simp only [processOneVideo, streamLoop_decode_failure]

/-! ### Claims C3 and C9: detector behaviour -/

theorem animeLoop_length (fc : Nat) :
    ∀ (boxes : List AnimeBox) (i : Nat),
      (animeLoop boxes fc i).length
        = (boxes.filter (fun b => mkRat 1 2 ≤ b.conf)).length := by
  intro boxes
  induction boxes with
  | nil => intro i; simp [animeLoop]
  | cons b rest ih =>
    intro i
    by_cases h : mkRat 1 2 ≤ b.conf
    · simp [animeLoop, h, List.filter_cons, ih]
    · simp [animeLoop, h, List.filter_cons, ih]

theorem animeLoop_mem (fc : Nat) :
    ∀ (boxes : List AnimeBox) (i : Nat) (p : Nat × Nat),
      p ∈ animeLoop boxes fc i ↔
        ∃ k b, boxes.get? k = some b ∧ mkRat 1 2 ≤ b.conf ∧ p = (fc, i + k) := by
  intro boxes
  induction boxes with
  | nil => intro i p; simp [animeLoop]
  | cons b rest ih =>
    intro i p
    constructor
    · intro hp
      by_cases h : mkRat 1 2 ≤ b.conf
      · simp only [animeLoop, if_pos h, List.mem_cons] at hp
        rcases hp with hp | hp
        · exact ⟨0, b, rfl, h, by simpa using hp⟩
        · rcases (ih (i + 1) p).1 hp with ⟨k, b', hk, hc, hpk⟩
          exact ⟨k + 1, b', by simpa using hk, hc, by
            simpa [Nat.add_assoc, Nat.add_comm, Nat.add_left_comm] using hpk⟩
      · simp only [animeLoop, if_neg h] at hp
        rcases (ih (i + 1) p).1 hp with ⟨k, b', hk, hc, hpk⟩
        exact ⟨k + 1, b', by simpa using hk, hc, by
          simpa [Nat.add_assoc, Nat.add_comm, Nat.add_left_comm] using hpk⟩
    · rintro ⟨k, b', hk, hc, rfl⟩
      match k with
      | 0 =>
        have hb : b = b' := by simpa using hk
        subst hb
        simp [animeLoop, if_pos hc]
      | k + 1 =>
        have hk' : rest.get? k = some b' := by simpa using hk
        have hmem : (fc, (i + 1) + k) ∈ animeLoop rest fc (i + 1) :=
          (ih (i + 1) _).2 ⟨k, b', hk', hc, rfl⟩
        have harith : i + (k + 1) = (i + 1) + k := by omega
        by_cases h : mkRat 1 2 ≤ b.conf
        · simp only [animeLoop, if_pos h, List.mem_cons]
          exact Or.inr (harith ▸ hmem)
        · simp only [animeLoop, if_neg h]
          exact harith ▸ hmem

/-- Claim C3: in the bounding-box (Anime) variant, the number of region
files written for a frame equals the number of candidate boxes whose
confidence is at least 1/2 (the fixed `0.5` threshold); a candidate whose
confidence is exactly 1/2 is included (the written keys are exactly the
candidate indices whose confidence meets the threshold), and candidates
below the threshold are dropped with no error (the function is total and
simply omits them). -/
theorem claim_C3 (boxes : List AnimeBox) (fc : Nat) :
    (detect_faces_anime boxes fc).length
        = (boxes.filter (fun b => mkRat 1 2 ≤ b.conf)).length ∧
      ∀ (i : Nat) (b : AnimeBox), boxes.get? i = some b →
        ((fc, i) ∈ detect_faces_anime boxes fc ↔ mkRat 1 2 ≤ b.conf) := by
  refine ⟨animeLoop_length fc boxes 0, fun i b hi => ?_⟩
  rw [detect_faces_anime, animeLoop_mem fc boxes 0 (fc, i)]
  constructor
  · rintro ⟨k, b', hk, hc, hp⟩
    have hik : i = k := by
      have := congrArg Prod.snd hp
      simpa using this
    subst hik
    have hbb : b' = b := by
      rw [hi] at hk
      exact (Option.some.inj hk).symm
    subst hbb
    exact hc
  · intro hc
    exact ⟨i, b, hi, hc, by simp⟩

/-- Closed witness for the hypothesis of `claim_C3`: the threshold test at
a concrete candidate list whose first candidate has confidence exactly
1/2. -/
theorem claim_C3_witness :
    (([⟨0, 0, 1, 1, mkRat 1 2⟩, ⟨0, 0, 1, 1, mkRat 1 4⟩] : List AnimeBox).get? 0
        = some ⟨0, 0, 1, 1, mkRat 1 2⟩) ∧
      ((5, 0) ∈ detect_faces_anime [⟨0, 0, 1, 1, mkRat 1 2⟩, ⟨0, 0, 1, 1, mkRat 1 4⟩] 5 ↔
        mkRat 1 2 ≤ (AnimeBox.mk 0 0 1 1 (mkRat 1 2)).conf) :=
  ⟨by decide,
    (claim_C3 [⟨0, 0, 1, 1, mkRat 1 2⟩, ⟨0, 0, 1, 1, mkRat 1 4⟩] 5).2 0 _ (by decide)⟩

theorem realLoop_range (fc : Nat) :
    ∀ (locs : List FaceLoc) (i : Nat),
      realLoop locs fc i = (List.range' i locs.length).map (fun k => (fc, k)) := by
  intro locs
  induction locs with
  | nil => intro i; simp [realLoop]
  | cons l rest ih => intro i; simp [realLoop, ih, List.range'_succ]

/-- Claim C9: the ordinal in an Anime-variant region file name is the
candidate's index in the model's native order before threshold filtering —
a frame whose middle candidate falls below 1/2 yields region files with
ordinals 0 and 2 (a gap) — whereas the Realistic variant always writes
contiguous ordinals `0 .. k-1`. -/
theorem claim_C9 :
    detect_faces_anime
        [⟨0, 0, 1, 1, mkRat 3 5⟩, ⟨0, 0, 1, 1, mkRat 3 10⟩, ⟨0, 0, 1, 1, mkRat 7 10⟩] 7
      = [(7, 0), (7, 2)] ∧
      (∀ (locs : List FaceLoc) (fc : Nat),
        detect_faces_realistic locs fc
          = (List.range locs.length).map (fun k => (fc, k))) ∧
      ∀ (boxes : List AnimeBox) (fc i : Nat),
        (fc, i) ∈ detect_faces_anime boxes fc →
          ∃ b, boxes.get? i = some b ∧ mkRat 1 2 ≤ b.conf := by
  refine ⟨by decide, fun locs fc => ?_, fun boxes fc i hmem => ?_⟩
  · rw [detect_faces_realistic, realLoop_range, List.range_eq_range']
  · rcases (animeLoop_mem fc boxes 0 (fc, i)).1 hmem with ⟨k, b, hk, hc, hp⟩
    have hik : i = k := by
      have := congrArg Prod.snd hp
      simpa using this
    subst hik
    exact ⟨b, hk, hc⟩

/-- Closed witness for the hypothesis of `claim_C9`: its third conjunct
applied at the concrete frame of its first conjunct — the region file with
ordinal 2 comes from the candidate at pre-filter index 2. -/
theorem claim_C9_witness :
    ∃ b, ([⟨0, 0, 1, 1, mkRat 3 5⟩, ⟨0, 0, 1, 1, mkRat 3 10⟩,
        ⟨0, 0, 1, 1, mkRat 7 10⟩] : List AnimeBox).get? 2 = some b ∧
      mkRat 1 2 ≤ b.conf :=
  claim_C9.2.2 [⟨0, 0, 1, 1, mkRat 3 5⟩, ⟨0, 0, 1, 1, mkRat 3 10⟩,
    ⟨0, 0, 1, 1, mkRat 7 10⟩] 7 2 (by decide)

/-! ### Claim C10 -/

/-- Claim C10: when no input file name ends (case-insensitively) in
`.mp4`, `.avi` or `.mkv`, `process_videos` returns immediately after the
"no videos" report: the workspace is not reset, no output directory is
created, and no error is raised — the whole world is returned unchanged. -/
theorem claim_C10 (mode : Mode) (inputFiles : List VideoFile) (w : World)
    (h : ∀ v ∈ inputFiles, videoExtOk v.name = false) :
    process_videos mode inputFiles w = (w, none) := by
  have hfilter : inputFiles.filter (fun v => videoExtOk v.name) = [] := by
    rw [List.filter_eq_nil_iff]
    intro v hv
    simp [h v hv]
  simp [process_videos, hfilter]

/-- Closed witness for the hypothesis of `claim_C10`: a listing holding
only a text file and a `.mov` video (an unrecognized extension) leaves the
world untouched. -/
theorem claim_C10_witness :
    (∀ v ∈ ([⟨"notes.txt", []⟩, ⟨"CLIP.MOV", []⟩] : List VideoFile),
      videoExtOk v.name = false) ∧
      process_videos Mode.Anime [⟨"notes.txt", []⟩, ⟨"CLIP.MOV", []⟩] emptyWorld
        = (emptyWorld, none) :=
  ⟨by decide, claim_C10 Mode.Anime [⟨"notes.txt", []⟩, ⟨"CLIP.MOV", []⟩] emptyWorld
    (by decide)⟩

/-! ### Promotion helpers -/

theorem lookupOut_single (b : String) (d : OutputDir) :
    lookupOut [(b, d)] b = some d := by
  simp [lookupOut]

theorem setOut_single (b : String) (d d' : OutputDir) :
    setOut [(b, d)] b d' = [(b, d')] := by
  simp [setOut]

theorem applyOp_mkdirBase_empty (wk : Workspace) (b : String) :
    applyOp { work := wk, output := [] } (FsOp.mkdirBase b)
      = { work := wk, output := [(b, { screencaps := none, faces := none })] } := by
  simp [applyOp, lookupOut, setOut]

theorem applyOp_mkdirSub_screencaps (wk : Workspace) (b : String) (d : OutputDir) :
    applyOp { work := wk, output := [(b, d)] } (FsOp.mkdirSub b .screencaps)
      = { work := wk, output := [(b, { screencaps := some [], faces := d.faces })] } := by
  simp [applyOp, lookupOut_single, setOut_single]

theorem applyOp_mkdirSub_faces (wk : Workspace) (b : String) (d : OutputDir) :
    applyOp { work := wk, output := [(b, d)] } (FsOp.mkdirSub b .faces)
      = { work := wk, output := [(b, { screencaps := d.screencaps, faces := some [] })] } := by
  simp [applyOp, lookupOut_single, setOut_single]

theorem applyOp_copySnap_single (wk : Workspace) (b : String) (k : Nat) (s : List Nat)
    (fo : Option (List (Nat × Nat))) :
    applyOp { work := wk, output := [(b, { screencaps := some s, faces := fo })] }
        (FsOp.copySnap b k)
      = { work := wk, output := [(b, { screencaps := some (s ++ [k]), faces := fo })] } := by
  simp [applyOp, lookupOut_single, setOut_single]

theorem applyOp_copyFace_single (wk : Workspace) (b : String) (k : Nat × Nat)
    (so : Option (List Nat)) (s : List (Nat × Nat)) :
    applyOp { work := wk, output := [(b, { screencaps := so, faces := some s })] }
        (FsOp.copyFace b k)
      = { work := wk, output := [(b, { screencaps := so, faces := some (s ++ [k]) })] } := by
  simp [applyOp, lookupOut_single, setOut_single]

theorem copySnapFold (b : String) :
    ∀ (ks : List Nat) (wk : Workspace) (s : List Nat) (fo : Option (List (Nat × Nat))),
      (ks.map (FsOp.copySnap b)).foldl applyOp
          { work := wk, output := [(b, { screencaps := some s, faces := fo })] }
        = { work := wk, output := [(b, { screencaps := some (s ++ ks), faces := fo })] } := by
  intro ks
  induction ks with
  | nil => intro wk s fo; simp
  | cons k ks ih =>
    intro wk s fo
    rw [List.map_cons, List.foldl_cons, applyOp_copySnap_single, ih]
    simp

theorem copyFaceFold (b : String) :
    ∀ (ks : List (Nat × Nat)) (wk : Workspace) (so : Option (List Nat))
      (s : List (Nat × Nat)),
      (ks.map (FsOp.copyFace b)).foldl applyOp
          { work := wk, output := [(b, { screencaps := so, faces := some s })] }
        = { work := wk, output := [(b, { screencaps := so, faces := some (s ++ ks) })] } := by
  intro ks
  induction ks with
  | nil => intro wk so s; simp
  | cons k ks ih =>
    intro wk so s
    rw [List.map_cons, List.foldl_cons, applyOp_copyFace_single, ih]
    simp

theorem promote_from_empty (b : String) (ws wk : Workspace) :
    promote b ws { work := wk, output := [] }
      = ({ work := wk,
            output := [(b, { screencaps := some ws.screencaps, faces := some ws.faces })] },
          none) := by
  simp only [promote, applyOp_mkdirBase_empty]
  rw [if_neg (by simp [subExists, lookupOut_single])]
  rw [List.foldl_cons, applyOp_mkdirSub_screencaps, copySnapFold]
  rw [if_neg (by simp [subExists, lookupOut_single])]
  rw [List.foldl_cons, applyOp_mkdirSub_faces, copyFaceFold]
  simp

/-! ### Claims C4 and C5: error propagation -/

/-- Claim C4 counterexample: a 3-frame video whose detector raises on
frame 1 (index 1).  The claim predicts 3 snapshots, zero regions for frame
1 and continued processing of frame 2; the code instead lets the exception
escape after writing the snapshot of frame 1, so only snapshots 0 and 1
exist, no output directory is created, and `process_videos` aborts with
the error. -/
theorem claim_C4_counterexample :
    (process_videos Mode.Anime
        [{ name := "v.mp4",
           stream := [some ⟨Except.ok [], Except.ok []⟩,
             some ⟨Except.error (), Except.error ()⟩,
             some ⟨Except.ok [], Except.ok []⟩] }] emptyWorld).1.work.screencaps
        = [0, 1] ∧
      (process_videos Mode.Anime
        [{ name := "v.mp4",
           stream := [some ⟨Except.ok [], Except.ok []⟩,
             some ⟨Except.error (), Except.error ()⟩,
             some ⟨Except.ok [], Except.ok []⟩] }] emptyWorld).2
        = some PipeErr.detectorError ∧
      (process_videos Mode.Anime
        [{ name := "v.mp4",
           stream := [some ⟨Except.ok [], Except.ok []⟩,
             some ⟨Except.error (), Except.error ()⟩,
             some ⟨Except.ok [], Except.ok []⟩] }] emptyWorld).1.output = [] := by
  decide

/-- Claim C4 as amended: a detector exception on a frame is not caught —
the failing frame's snapshot (written before detection) stays in the
workspace, but no later frame of the video is processed and the exception
escapes the streaming loop. -/
theorem claim_C4_amended (mode : Mode) (f : Frame) (rest : List (Option Frame))
    (fc : Nat) (ws : Workspace) (e : Unit)
    (h : runDetect mode f fc = Except.error e) :
    streamLoop mode (some f :: rest) fc ws
      = ({ ws with screencaps := ws.screencaps ++ [fc] }, 1, some PipeErr.detectorError) := by
  simp [streamLoop, h]

/-- Closed witness for the hypothesis of `claim_C4_amended`: the YOLO
model raising on frame 2 of some video, with one more frame pending. -/
theorem claim_C4_amended_witness :
    streamLoop Mode.Anime
        [some ⟨Except.error (), Except.error ()⟩, some ⟨Except.ok [], Except.ok []⟩] 2
        { screencaps := [0, 1], faces := [] }
      = ({ screencaps := [0, 1, 2], faces := [] }, 1, some PipeErr.detectorError) := by
  have h := claim_C4_amended Mode.Anime ⟨Except.error (), Except.error ()⟩
    [some ⟨Except.ok [], Except.ok []⟩] 2 { screencaps := [0, 1], faces := [] } () rfl
  simpa using h

/-- Claim C5 counterexample: a batch of two videos where the first video's
detector raises.  The claim predicts the failure is recorded and the
second video is still processed; the code instead aborts the whole run —
`process_videos` returns the error and no output entry for the second
video's base name exists. -/
theorem claim_C5_counterexample :
    (process_videos Mode.Anime
        [{ name := "bad.mp4", stream := [some ⟨Except.error (), Except.error ()⟩] },
         { name := "good.mp4", stream := [some ⟨Except.ok [], Except.ok []⟩] }]
        emptyWorld).2 = some PipeErr.detectorError ∧
      lookupOut (process_videos Mode.Anime
        [{ name := "bad.mp4", stream := [some ⟨Except.error (), Except.error ()⟩] },
         { name := "good.mp4", stream := [some ⟨Except.ok [], Except.ok []⟩] }]
        emptyWorld).1.output "good" = none := by
  decide

/-- Claim C5 as amended: no per-video error is isolated — the first video
whose processing raises (detector failure or promotion failure) aborts the
batch loop immediately with that error, and the remaining videos are never
processed; only the state already mutated by the failing video remains. -/
theorem claim_C5_amended (mode : Mode) (v : VideoFile) (rest : List VideoFile)
    (w w' : World) (e : PipeErr) (h : processOneVideo mode v w = (w', some e)) :
    runVideos mode (v :: rest) w = (w', some e) := by
  simp [runVideos, h]

/-- Closed witness for the hypothesis of `claim_C5_amended`: the failing
first video of `claim_C5_counterexample`, with the healthy second video
still pending. -/
theorem claim_C5_amended_witness :
    runVideos Mode.Anime
        [{ name := "bad.mp4", stream := [some ⟨Except.error (), Except.error ()⟩] },
         { name := "good.mp4", stream := [some ⟨Except.ok [], Except.ok []⟩] }]
        emptyWorld
      = ({ work := { screencaps := [0], faces := [] }, output := [] },
          some PipeErr.detectorError) :=
  claim_C5_amended Mode.Anime
    { name := "bad.mp4", stream := [some ⟨Except.error (), Except.error ()⟩] }
    [{ name := "good.mp4", stream := [some ⟨Except.ok [], Except.ok []⟩] }]
    emptyWorld
    { work := { screencaps := [0], faces := [] }, output := [] }
    PipeErr.detectorError (by decide)

/-! ### Claim C7: base-name collision -/

theorem processOne_empty_success (mode : Mode) (v : VideoFile) (w1 : World)
    (h : processOneVideo mode v emptyWorld = (w1, none)) :
    ∃ sc fcs, w1.output
      = [(splitextBase v.name, { screencaps := some sc, faces := some fcs })] := by
  simp only [processOneVideo, resetWorkspace_eq_empty, emptyWorld] at h
  split at h
  · simp at h
  · rw [promote_from_empty] at h
    injection h with h1 h2
    exact ⟨_, _, by rw [← h1]⟩

theorem promote_collision (b : String) (ws : Workspace) (w : World) (d : OutputDir)
    (hd : lookupOut w.output b = some d) (hsc : d.screencaps.isSome = true) :
    promote b ws w = (w, some PipeErr.fileExists) := by
  have happ : applyOp w (FsOp.mkdirBase b) = w := by
    simp [applyOp, hd]
  have hsub : subExists w b .screencaps = true := by
    simp only [subExists, hd]
    exact hsc
  simp [promote, happ, hsub]

theorem processOne_collision (mode : Mode) (v2 : VideoFile) (w1 : World) (d : OutputDir)
    (hd : lookupOut w1.output (splitextBase v2.name) = some d)
    (hsc : d.screencaps.isSome = true) :
    (processOneVideo mode v2 w1).1.output = w1.output ∧
      (processOneVideo mode v2 w1).2.isSome = true := by
  simp only [processOneVideo, resetWorkspace_eq_empty]
  split
  · exact ⟨rfl, rfl⟩
  · have hp := promote_collision (splitextBase v2.name)
      (streamLoop mode v2.stream 0 emptyWorkspace).1
      (World.mk (streamLoop mode v2.stream 0 emptyWorkspace).1 w1.output) d hd hsc
    rw [hp]
    exact ⟨rfl, rfl⟩

theorem runVideos_pair (mode : Mode) (v1 v2 : VideoFile) (w1 : World)
    (h1 : processOneVideo mode v1 emptyWorld = (w1, none)) :
    runVideos mode [v1, v2] emptyWorld
      = ((processOneVideo mode v2 w1).1, (processOneVideo mode v2 w1).2) := by
  simp only [runVideos, h1]
  split
  · next heq => rw [heq]
  · next heq => rw [heq]

/-- Claim C7: two videos of one run whose names share a base name do not
silently overwrite each other's outputs.  If the first video processes
successfully from a fresh state, the second video's promotion hits
`shutil.copytree`'s `FileExistsError` before copying anything (or fails
even earlier), so the run ends with the first video's output intact under
the shared base name and with an error reported — nothing is silent and
nothing is overwritten. -/
theorem claim_C7 (mode : Mode) (v1 v2 : VideoFile) (w1 : World)
    (hext1 : videoExtOk v1.name = true) (hext2 : videoExtOk v2.name = true)
    (hbase : splitextBase v2.name = splitextBase v1.name)
    (h1 : processOneVideo mode v1 emptyWorld = (w1, none)) :
    (process_videos mode [v1, v2] emptyWorld).1.output = w1.output ∧
      (process_videos mode [v1, v2] emptyWorld).2.isSome = true := by
  have hrun : process_videos mode [v1, v2] emptyWorld = runVideos mode [v1, v2] emptyWorld := by
    simp [process_videos, hext1, hext2]
  rw [hrun, runVideos_pair mode v1 v2 w1 h1]
  rcases processOne_empty_success mode v1 w1 h1 with ⟨sc, fcs, hout⟩
  exact processOne_collision mode v2 w1 { screencaps := some sc, faces := some fcs }
    (by rw [hout, hbase, lookupOut_single]) rfl

/-- Closed witness for the hypotheses of `claim_C7`: `a.mp4` and `a.avi`
in one run; after the run, `output/a/` still holds exactly the first
video's snapshot and region, and the run ends in an error. -/
theorem claim_C7_witness :
    (videoExtOk "a.mp4" = true) ∧ (videoExtOk "a.avi" = true) ∧
      splitextBase "a.avi" = splitextBase "a.mp4" ∧
      (process_videos Mode.Anime
          [{ name := "a.mp4", stream := [some ⟨Except.ok [⟨0, 0, 1, 1, mkRat 3 5⟩], Except.ok []⟩] },
           { name := "a.avi", stream := [some ⟨Except.ok [⟨0, 0, 1, 1, mkRat 4 5⟩], Except.ok []⟩] }]
          emptyWorld).1.output
        = [("a", { screencaps := some [0], faces := some [(0, 0)] })] ∧
      (process_videos Mode.Anime
          [{ name := "a.mp4", stream := [some ⟨Except.ok [⟨0, 0, 1, 1, mkRat 3 5⟩], Except.ok []⟩] },
           { name := "a.avi", stream := [some ⟨Except.ok [⟨0, 0, 1, 1, mkRat 4 5⟩], Except.ok []⟩] }]
          emptyWorld).2.isSome = true := by
  have h := claim_C7 Mode.Anime
    { name := "a.mp4", stream := [some ⟨Except.ok [⟨0, 0, 1, 1, mkRat 3 5⟩], Except.ok []⟩] }
    { name := "a.avi", stream := [some ⟨Except.ok [⟨0, 0, 1, 1, mkRat 4 5⟩], Except.ok []⟩] }
    { work := { screencaps := [0], faces := [(0, 0)] },
      output := [("a", { screencaps := some [0], faces := some [(0, 0)] })] }
    (by decide) (by decide) (by decide) (by decide)
  exact ⟨by decide, by decide, by decide, h.1, h.2⟩

/-! ### Claim C1: promotion atomicity -/

/-- Claim C1 counterexample: interrupting the promotion of a workspace
holding snapshots 0 and 1 after three filesystem steps (base directory,
`screencaps` directory, first file copy) leaves `output/vid/` visible
under its final name holding `frame_0` but not `frame_1` — a nonempty
proper subset of the expected two files, which the claim says can never be
observed. -/
theorem claim_C1_counterexample :
    observedFiles (((promoteTrace "vid" { screencaps := [0, 1], faces := [] }).take 3).foldl
        applyOp emptyWorld) "vid" = [OutFile.snap 0] ∧
      expectedFiles { screencaps := [0, 1], faces := [] }
        = [OutFile.snap 0, OutFile.snap 1] := by
  decide

/-- Claim C1 as amended: promotion is not atomic.  It copies files one by
one directly into the final-named directory, so an interruption after any
number of steps leaves some subset — possibly a nonempty proper one — of
the expected files visible under the final name; only running every step
makes exactly the full expected set visible. -/
theorem claim_C1_amended (b : String) (ws : Workspace) :
    (∀ k : Nat, observedFiles (((promoteTrace b ws).take k).foldl applyOp emptyWorld) b
        ⊆ expectedFiles ws) ∧
      observedFiles ((promoteTrace b ws).foldl applyOp emptyWorld) b = expectedFiles ws := by
  have hbase : applyOp emptyWorld (FsOp.mkdirBase b)
      = World.mk emptyWorkspace [(b, OutputDir.mk none none)] := by
    simp [applyOp, emptyWorld, lookupOut, setOut]
  constructor
  · intro k
    match k with
    | 0 =>
      simp [observedFiles, emptyWorld, lookupOut]
    | m + 1 =>
      rw [promoteTrace, List.take_succ_cons, List.foldl_cons, hbase,
        List.take_append_eq_append_take, List.foldl_append]
      match m with
      | 0 =>
        simp [observedFiles, lookupOut_single]
      | j + 1 =>
        rw [List.take_succ_cons, List.foldl_cons, applyOp_mkdirSub_screencaps,
          ← List.map_take, copySnapFold]
        simp only [List.length_cons, List.length_map]
        cases hr : j + 1 - (ws.screencaps.length + 1) with
        | zero =>
          simp only [List.take_zero, List.foldl_nil, observedFiles, lookupOut_single,
            Option.getD_some, Option.getD_none, List.map_nil, List.append_nil,
            List.nil_append, expectedFiles]
          exact (List.map_subset _ (List.take_subset _ _)).trans
            (List.subset_append_left _ _)
        | succ s =>
          have hjlen : ws.screencaps.length ≤ j := by omega
          rw [List.take_of_length_le hjlen, List.take_succ_cons, List.foldl_cons,
            applyOp_mkdirSub_faces, ← List.map_take, copyFaceFold]
          simp only [observedFiles, lookupOut_single, Option.getD_some, List.nil_append,
            expectedFiles]
          exact List.append_subset.2 ⟨List.subset_append_left _ _,
            (List.map_subset _ (List.take_subset _ _)).trans (List.subset_append_right _ _)⟩
  · rw [promoteTrace, List.foldl_cons, hbase, List.foldl_append, List.foldl_cons,
      List.foldl_cons, applyOp_mkdirSub_screencaps, copySnapFold, applyOp_mkdirSub_faces,
      copyFaceFold]
    simp [observedFiles, lookupOut_single, expectedFiles]

/-- Closed witness for `claim_C1_amended` at a concrete workspace: the
completed promotion trace makes exactly the expected files visible. -/
theorem claim_C1_amended_witness :
    observedFiles ((promoteTrace "vid" (Workspace.mk [0, 1] [(1, 0)])).foldl applyOp
        emptyWorld) "vid"
      = expectedFiles (Workspace.mk [0, 1] [(1, 0)]) :=
  (claim_C1_amended "vid" (Workspace.mk [0, 1] [(1, 0)])).2

end ScreenCap
